import Mathlib

/-!
Shallow embedding of the NEO notebook computational core:
the photometry module (`phase_func`, `reduc_mag`, `hg_app_mag`) from
`05_NEO_Apparent_Magnitude.ipynb` and the orbit classifier (`neo_class`)
from `02_NEO_Classes.ipynb`.

Python floats are modelled as real numbers; the decimal literals and
threshold comparisons of the classifier are modelled over the rationals,
where they are decidable.  Dictionary lookups (which raise a KeyError on a
missing key) are modelled with `Option`.  Partiality of the underlying
real operations (division by zero, tangent at odd multiples of `π/2`, real
exponentiation with negative base) is tracked by explicit definedness
predicates, since `Real.tan`, `Real.rpow` and real division in Lean are
totalised with junk values.
-/

namespace NEO

noncomputable section

/-- Dictionary `a_factor = {1: 3.33, 2: 1.87}` from `phase_func`;
lookup of a missing key is `none`. -/
def a_factor (index : ℤ) : Option ℝ :=
  if index = 1 then some 3.33 else if index = 2 then some 1.87 else none

/-- Dictionary `b_factor = {1: 0.63, 2: 1.22}` from `phase_func`;
lookup of a missing key is `none`. -/
def b_factor (index : ℤ) : Option ℝ :=
  if index = 1 then some 0.63 else if index = 2 then some 1.22 else none

/-- Phase function for the H-G magnitude model:
`phi = exp(-1.0 * a_factor[index] * (tan(0.5 * phase_angle) ** b_factor[index]))`.
The two dictionary lookups can fail, hence the `Option`. -/
def phase_func (index : ℤ) (phase_angle : ℝ) : Option ℝ := do
  let a ← a_factor index
  let b ← b_factor index
  pure (Real.exp (-1.0 * a * (Real.tan (0.5 * phase_angle) ^ b)))

/-- Reduced magnitude:
`abs_mag - 2.5 * log10((1.0 - slope_g) * phase_func(1, θ) + slope_g * phase_func(2, θ))`. -/
def reduc_mag (abs_mag phase_angle slope_g : ℝ) : Option ℝ := do
  let phi1 ← phase_func 1 phase_angle
  let phi2 ← phase_func 2 phase_angle
  pure (abs_mag - 2.5 * Real.logb 10 ((1.0 - slope_g) * phi1 + slope_g * phi2))

/-- Reduced magnitude at the Python default slope parameter `slope_g = 0.15`. -/
def reduc_mag_default (abs_mag phase_angle : ℝ) : Option ℝ :=
  reduc_mag abs_mag phase_angle 0.15

/-- Three-dimensional vectors, as passed to `hg_app_mag`. -/
abbrev Vec3 := ℝ × ℝ × ℝ

/-- Dot product `sum(v1_i * v2_i for v1_i, v2_i in zip(v1, v2))`. -/
def dotp (v1 v2 : Vec3) : ℝ :=
  v1.1 * v2.1 + v1.2.1 * v2.2.1 + v1.2.2 * v2.2.2

/-- Euclidean norm `np.linalg.norm(v)`. -/
def vnorm (v : Vec3) : ℝ :=
  Real.sqrt (v.1 ^ 2 + v.2.1 ^ 2 + v.2.2 ^ 2)

/-- Apparent magnitude in the H-G system: phase angle
`acos(dotp_res / (norm1 * norm2))`, then
`reduc_mag(abs_mag, phase_angle, slope_g) + 5.0 * log10(norm1 * norm2)`. -/
def hg_app_mag (abs_mag : ℝ) (vec_obj2obs vec_obj2ill : Vec3) (slope_g : ℝ) :
    Option ℝ := do
  let vec_obj2obs_norm := vnorm vec_obj2obs
  let vec_obj2ill_norm := vnorm vec_obj2ill
  let dotp_res := dotp vec_obj2obs vec_obj2ill
  let obj_phase_angle := Real.arccos (dotp_res / (vec_obj2obs_norm * vec_obj2ill_norm))
  let red_mag ← reduc_mag abs_mag obj_phase_angle slope_g
  pure (red_mag + 5.0 * Real.logb 10 (vec_obj2obs_norm * vec_obj2ill_norm))

/-- Apparent magnitude at the Python default slope parameter `slope_g = 0.15`. -/
def hg_app_mag_default (abs_mag : ℝ) (vec_obj2obs vec_obj2ill : Vec3) : Option ℝ :=
  hg_app_mag abs_mag vec_obj2obs vec_obj2ill 0.15

/-- Definedness of the real power `x ** y`: defined when the base is
positive, or the base is zero with positive exponent, or the exponent is
an integer.  Outside this domain `Real.rpow` returns junk values while the
mathematical expression is undefined over the reals. -/
def rpow_defined (x y : ℝ) : Prop :=
  0 < x ∨ (x = 0 ∧ 0 < y) ∨ ∃ n : ℤ, y = (n : ℝ)

/-- Definedness of the expression computed by `phase_func`: the tangent
must be defined at `0.5 * phase_angle` (cosine nonzero) and raising it to
the looked-up exponent must be defined over the reals. -/
def phase_func_dom (index : ℤ) (phase_angle : ℝ) : Prop :=
  Real.cos (0.5 * phase_angle) ≠ 0 ∧
    ∀ b, b_factor index = some b → rpow_defined (Real.tan (0.5 * phase_angle)) b

/-- Definedness of the phase-angle division inside `hg_app_mag`: the
product of the two vector norms, the divisor, must be nonzero. -/
def hg_app_mag_dom (vec_obj2obs vec_obj2ill : Vec3) : Prop :=
  vnorm vec_obj2obs * vnorm vec_obj2ill ≠ 0

end

/-- Orbit classifier from `02_NEO_Classes.ipynb`: an if/elif chain over
semi-major axis, perihelion and aphelion (all in AU). -/
def neo_class (sem_maj_axis_au peri_helio_au ap_helio_au : ℚ) : String :=
  if sem_maj_axis_au > 1.0 ∧ (1.017 < peri_helio_au ∧ peri_helio_au < 1.3) then
    "Amor"
  else if sem_maj_axis_au > 1.0 ∧ peri_helio_au < 1.017 then
    "Apollo"
  else if sem_maj_axis_au < 1.0 ∧ ap_helio_au > 0.983 then
    "Aten"
  else if sem_maj_axis_au < 1.0 ∧ ap_helio_au < 0.983 then
    "Atira"
  else
    "Other"

/-! Helper lemmas shared by several proofs below. -/

/-- Evaluation of the norm of the vector `(-1, 0, 0)`. -/
theorem vnorm_neg_one : vnorm (-1, 0, 0) = 1 := by
  simp [vnorm]

/-- Evaluation of the norm of the vector `(-2, 0, 0)`. -/
theorem vnorm_neg_two : vnorm (-2, 0, 0) = 2 := by
  norm_num [vnorm]
  rw [show (4:ℝ) = 2 ^ 2 by norm_num, Real.sqrt_sq (by norm_num : (0:ℝ) ≤ 2)]

/-- Evaluation of the norm of the zero vector. -/
theorem vnorm_zero_vec : vnorm (0, 0, 0) = 0 := by
  simp [vnorm]

/-- Evaluation of the dot product of `(-1, 0, 0)` and `(-2, 0, 0)`. -/
theorem dotp_example : dotp (-1, 0, 0) (-2, 0, 0) = 2 := by
  norm_num [dotp]

/-- Evaluation of `phase_func` at index 1 and phase angle 0. -/
theorem phase_func_one_at_zero : phase_func 1 0 = some 1 := by
  have h : (0:ℝ) ^ (0.63:ℝ) = 0 := Real.zero_rpow (by norm_num)
  simp [phase_func, a_factor, b_factor, Real.tan_zero, h]

/-- Evaluation of `phase_func` at index 2 and phase angle 0. -/
theorem phase_func_two_at_zero : phase_func 2 0 = some 1 := by
  have h : (0:ℝ) ^ (1.22:ℝ) = 0 := Real.zero_rpow (by norm_num)
  simp [phase_func, a_factor, b_factor, Real.tan_zero, h]

/-- Evaluation of `reduc_mag` at phase angle 0 and slope 0.10: both phase
functions are 1, the log argument is 1 and the reduced magnitude equals
the absolute magnitude. -/
theorem reduc_mag_at_zero_angle : reduc_mag 10 0 0.10 = some 10 := by
  simp [reduc_mag, phase_func_one_at_zero, phase_func_two_at_zero]
  norm_num [Real.logb_one]

/-- Neither 0.63 nor 1.22, the two exponents of `b_factor`, is an integer. -/
theorem noninteger_exponents :
    (¬∃ n : ℤ, (0.63 : ℝ) = (n : ℝ)) ∧ (¬∃ n : ℤ, (1.22 : ℝ) = (n : ℝ)) := by
  constructor <;> rintro ⟨n, hn⟩
  · have h0 : (0 : ℝ) < (n : ℝ) := by rw [← hn]; norm_num
    have h1 : ((n : ℝ)) < 1 := by rw [← hn]; norm_num
    have : (0 : ℤ) < n := by exact_mod_cast h0
    have : n < (1 : ℤ) := by exact_mod_cast h1
    omega
  · have h0 : (1 : ℝ) < (n : ℝ) := by rw [← hn]; norm_num
    have h1 : ((n : ℝ)) < 2 := by rw [← hn]; norm_num
    have : (1 : ℤ) < n := by exact_mod_cast h0
    have : n < (2 : ℤ) := by exact_mod_cast h1
    omega

/-! Claim theorems. -/

/-- C1: for every absolute magnitude, slope parameter and pair of nonzero
vectors whose phase angle `acos(dot / (norm1 * norm2))` lies in `[0, π)`,
`hg_app_mag` returns `reduc_mag` at that phase angle plus
`5 * log10(norm1 * norm2)`. -/
theorem hg_app_mag_formula (abs_mag slope_g : ℝ) (v1 v2 : Vec3)
    (h1 : vnorm v1 ≠ 0) (h2 : vnorm v2 ≠ 0)
    (hq : Real.arccos (dotp v1 v2 / (vnorm v1 * vnorm v2)) ∈ Set.Ico 0 Real.pi)
    (r : ℝ)
    (hr : reduc_mag abs_mag (Real.arccos (dotp v1 v2 / (vnorm v1 * vnorm v2))) slope_g
            = some r) :
    hg_app_mag abs_mag v1 v2 slope_g =
      some (r + 5 * Real.logb 10 (vnorm v1 * vnorm v2)) := by
  simp [hg_app_mag, hr]
  norm_num

/-- Witness for C1 at `abs_mag = 10`, `slope_g = 0.10`, `v1 = (-1,0,0)`,
`v2 = (-2,0,0)`: the phase angle is `arccos 1 = 0` and the reduced
magnitude is 10. -/
theorem hg_app_mag_formula_witness :
    hg_app_mag 10 (-1, 0, 0) (-2, 0, 0) 0.10 =
      some (10 + 5 * Real.logb 10 (vnorm (-1, 0, 0) * vnorm (-2, 0, 0))) := by
  have harccos : Real.arccos (dotp (-1, 0, 0) (-2, 0, 0) /
      (vnorm (-1, 0, 0) * vnorm (-2, 0, 0))) = 0 := by
    rw [dotp_example, vnorm_neg_one, vnorm_neg_two]
    norm_num [Real.arccos_one]
  refine hg_app_mag_formula 10 0.10 (-1, 0, 0) (-2, 0, 0) ?_ ?_ ?_ 10 ?_
  · rw [vnorm_neg_one]
    norm_num
  · rw [vnorm_neg_two]
    norm_num
  · rw [harccos]
    exact Set.mem_Ico.mpr ⟨le_refl 0, Real.pi_pos⟩
  · rw [harccos]
    exact reduc_mag_at_zero_angle

/-- C2: for every absolute magnitude, phase angle in `[0, π)` and slope
parameter with positive log argument, `reduc_mag` returns
`abs_mag - 2.5 * log10((1 - G) * phase_func(1, θ) + G * phase_func(2, θ))`,
and the omitted slope parameter defaults to 0.15. -/
theorem reduc_mag_formula (abs_mag phase_angle slope_g : ℝ)
    (hq : phase_angle ∈ Set.Ico 0 Real.pi)
    (p1 p2 : ℝ)
    (h1 : phase_func 1 phase_angle = some p1)
    (h2 : phase_func 2 phase_angle = some p2)
    (hpos : 0 < (1 - slope_g) * p1 + slope_g * p2) :
    reduc_mag abs_mag phase_angle slope_g =
      some (abs_mag - 2.5 * Real.logb 10 ((1 - slope_g) * p1 + slope_g * p2)) ∧
    reduc_mag_default abs_mag phase_angle = reduc_mag abs_mag phase_angle 0.15 := by
  refine ⟨?_, rfl⟩
  simp [reduc_mag, h1, h2]
  norm_num

/-- Witness for C2 at `abs_mag = 10`, `phase_angle = 0`, `slope_g = 0.5`,
where both phase functions evaluate to 1. -/
theorem reduc_mag_formula_witness :
    reduc_mag 10 0 0.5 =
      some (10 - 2.5 * Real.logb 10 ((1 - 0.5) * 1 + 0.5 * 1)) ∧
    reduc_mag_default 10 0 = reduc_mag 10 0 0.15 :=
  reduc_mag_formula 10 0 0.5 (Set.mem_Ico.mpr ⟨le_refl 0, Real.pi_pos⟩) 1 1
    phase_func_one_at_zero phase_func_two_at_zero (by norm_num)

/-- C3: for each index in `{1, 2}` and every phase angle in `[0, π)`,
`phase_func` returns `exp(-A * tan(θ/2) ^ B)` with
`(A, B) = (3.33, 0.63)` for index 1 and `(1.87, 1.22)` for index 2. -/
theorem phase_func_formula (phase_angle : ℝ)
    (h : phase_angle ∈ Set.Ico 0 Real.pi) :
    phase_func 1 phase_angle =
      some (Real.exp (-(3.33 * Real.tan (phase_angle / 2) ^ (0.63 : ℝ)))) ∧
    phase_func 2 phase_angle =
      some (Real.exp (-(1.87 * Real.tan (phase_angle / 2) ^ (1.22 : ℝ)))) := by
  constructor <;>
  · simp only [phase_func, a_factor, b_factor]
    norm_num
    rw [show (1:ℝ)/2 * phase_angle = phase_angle / 2 by ring]

/-- Witness for C3 at `phase_angle = 0`. -/
theorem phase_func_formula_witness :
    phase_func 1 0 =
      some (Real.exp (-(3.33 * Real.tan ((0:ℝ) / 2) ^ (0.63 : ℝ)))) ∧
    phase_func 2 0 =
      some (Real.exp (-(1.87 * Real.tan ((0:ℝ) / 2) ^ (1.22 : ℝ)))) :=
  phase_func_formula 0 (Set.mem_Ico.mpr ⟨le_refl 0, Real.pi_pos⟩)

/-- C4: `neo_class` returns Amor when `a > 1` and `1.017 < q < 1.3`,
Apollo when `a > 1` and `q < 1.017`, Aten when `a < 1` and `Q > 0.983`,
Atira when `a < 1` and `Q < 0.983`, and Other in every remaining case;
and it classifies the four example orbits as stated. -/
theorem neo_class_spec (a q Q : ℚ) :
    ((a > 1.0 ∧ (1.017 < q ∧ q < 1.3)) → neo_class a q Q = "Amor") ∧
    ((a > 1.0 ∧ q < 1.017) → neo_class a q Q = "Apollo") ∧
    ((a < 1.0 ∧ Q > 0.983) → neo_class a q Q = "Aten") ∧
    ((a < 1.0 ∧ Q < 0.983) → neo_class a q Q = "Atira") ∧
    (¬(a > 1.0 ∧ (1.017 < q ∧ q < 1.3)) → ¬(a > 1.0 ∧ q < 1.017) →
     ¬(a < 1.0 ∧ Q > 0.983) → ¬(a < 1.0 ∧ Q < 0.983) → neo_class a q Q = "Other") ∧
    neo_class 1.9191 1.0832 2.7550 = "Amor" ∧
    neo_class 1.4702 0.64699 2.2935 = "Apollo" ∧
    neo_class 0.9668 0.7901 1.1434 = "Aten" ∧
    neo_class 0.7411 0.5024 0.9798 = "Atira" := by
  refine ⟨?_, ?_, ?_, ?_, ?_, ?_, ?_, ?_, ?_⟩
  · intro h
    unfold neo_class
    rw [if_pos h]
  · rintro ⟨ha, hq⟩
    have n1 : ¬(a > 1.0 ∧ (1.017 < q ∧ q < 1.3)) := by
      rintro ⟨-, hq1, -⟩
      exact absurd hq1 (not_lt.mpr hq.le)
    unfold neo_class
    rw [if_neg n1, if_pos ⟨ha, hq⟩]
  · rintro ⟨ha, hQ⟩
    have na : ¬(a > 1.0) := not_lt.mpr ha.le
    have n1 : ¬(a > 1.0 ∧ (1.017 < q ∧ q < 1.3)) := fun hc => na hc.1
    have n2 : ¬(a > 1.0 ∧ q < 1.017) := fun hc => na hc.1
    unfold neo_class
    rw [if_neg n1, if_neg n2, if_pos ⟨ha, hQ⟩]
  · rintro ⟨ha, hQ⟩
    have na : ¬(a > 1.0) := not_lt.mpr ha.le
    have n1 : ¬(a > 1.0 ∧ (1.017 < q ∧ q < 1.3)) := fun hc => na hc.1
    have n2 : ¬(a > 1.0 ∧ q < 1.017) := fun hc => na hc.1
    have n3 : ¬(a < 1.0 ∧ Q > 0.983) := by
      rintro ⟨-, hQ2⟩
      exact absurd hQ2 (not_lt.mpr hQ.le)
    unfold neo_class
    rw [if_neg n1, if_neg n2, if_neg n3, if_pos ⟨ha, hQ⟩]
  · intro n1 n2 n3 n4
    unfold neo_class
    rw [if_neg n1, if_neg n2, if_neg n3, if_neg n4]
  · norm_num [neo_class]
  · norm_num [neo_class]
  · norm_num [neo_class]
  · norm_num [neo_class]

/-- Witness for C4 at `a = 2`, `q = 1.1`, `Q = 3`, an Amor orbit. -/
theorem neo_class_spec_witness : neo_class 2 1.1 3 = "Amor" :=
  (neo_class_spec 2 1.1 3).1 ⟨by norm_num, by norm_num, by norm_num⟩

/-- C5: inputs lying exactly on a classification threshold (`a = 1.0`,
or `a > 1` with `q = 1.017` or `q = 1.3`, or `a < 1` with `Q = 0.983`)
fall through every strict comparison and are classified Other. -/
theorem neo_class_boundary (a q Q : ℚ) :
    (a = 1.0 → neo_class a q Q = "Other") ∧
    (a > 1.0 → neo_class a 1.017 Q = "Other") ∧
    (a > 1.0 → neo_class a 1.3 Q = "Other") ∧
    (a < 1.0 → neo_class a q 0.983 = "Other") := by
  refine ⟨?_, ?_, ?_, ?_⟩
  · intro h
    subst h
    have na : ¬((1.0:ℚ) > 1.0) := lt_irrefl _
    have nb : ¬((1.0:ℚ) < 1.0) := lt_irrefl _
    unfold neo_class
    rw [if_neg, if_neg, if_neg, if_neg] <;> rintro ⟨hc, -⟩
    · exact nb hc
    · exact nb hc
    · exact na hc
    · exact na hc
  · intro h
    have nb : ¬(a < 1.0) := not_lt.mpr h.le
    have n1 : ¬(a > 1.0 ∧ (1.017 < (1.017:ℚ) ∧ (1.017:ℚ) < 1.3)) := by
      rintro ⟨-, hq1, -⟩
      exact lt_irrefl _ hq1
    have n2 : ¬(a > 1.0 ∧ (1.017:ℚ) < 1.017) := by
      rintro ⟨-, hq⟩
      exact lt_irrefl _ hq
    unfold neo_class
    rw [if_neg n1, if_neg n2, if_neg (fun hc => nb hc.1), if_neg (fun hc => nb hc.1)]
  · intro h
    have nb : ¬(a < 1.0) := not_lt.mpr h.le
    have n1 : ¬(a > 1.0 ∧ (1.017 < (1.3:ℚ) ∧ (1.3:ℚ) < 1.3)) := by
      rintro ⟨-, -, hq2⟩
      exact lt_irrefl _ hq2
    have n2 : ¬(a > 1.0 ∧ (1.3:ℚ) < 1.017) := by
      rintro ⟨-, hq⟩
      norm_num at hq
    unfold neo_class
    rw [if_neg n1, if_neg n2, if_neg (fun hc => nb hc.1), if_neg (fun hc => nb hc.1)]
  · intro h
    have n1 : ¬(a > 1.0 ∧ (1.017 < q ∧ q < 1.3)) := by
      rintro ⟨hc, -⟩
      exact absurd hc (not_lt.mpr h.le)
    have n2 : ¬(a > 1.0 ∧ q < 1.017) := by
      rintro ⟨hc, -⟩
      exact absurd hc (not_lt.mpr h.le)
    have n3 : ¬(a < 1.0 ∧ (0.983:ℚ) > 0.983) := by
      rintro ⟨-, hc⟩
      exact lt_irrefl _ hc
    have n4 : ¬(a < 1.0 ∧ (0.983:ℚ) < 0.983) := by
      rintro ⟨-, hc⟩
      exact lt_irrefl _ hc
    unfold neo_class
    rw [if_neg n1, if_neg n2, if_neg n3, if_neg n4]

/-- Witness for C5 at the threshold `a = 1.0`. -/
theorem neo_class_boundary_witness : neo_class 1.0 0.5 2 = "Other" :=
  (neo_class_boundary 1.0 0.5 2).1 rfl

/-- C6 (amended): for each index in `{1, 2}` and every phase angle in
`[π, 2π)`, the expression computed by `phase_func` is mathematically
undefined: at `θ = π` the halved angle hits the pole of the tangent, and
for `θ` in `(π, 2π)` the tangent of the halved angle is negative and is
raised to a non-integer power. -/
theorem phase_func_undefined (index : ℤ) (hi : index = 1 ∨ index = 2)
    (phase_angle : ℝ) (hlo : Real.pi ≤ phase_angle) (hhi : phase_angle < 2 * Real.pi) :
    ¬ phase_func_dom index phase_angle := by
  rcases eq_or_lt_of_le hlo with heq | hlt
  · rintro ⟨hc, -⟩
    apply hc
    rw [← heq, show (0.5 : ℝ) * Real.pi = Real.pi / 2 by ring, Real.cos_pi_div_two]
  · rintro ⟨-, hrpow⟩
    have hpi := Real.pi_pos
    have hs : 0 < Real.sin (0.5 * phase_angle) :=
      Real.sin_pos_of_pos_of_lt_pi (by linarith) (by linarith)
    have hcneg : Real.cos (0.5 * phase_angle) < 0 :=
      Real.cos_neg_of_pi_div_two_lt_of_lt (by linarith) (by linarith)
    have htan : Real.tan (0.5 * phase_angle) < 0 := by
      rw [Real.tan_eq_sin_div_cos]
      exact div_neg_of_pos_of_neg hs hcneg
    rcases hi with hi | hi <;> subst hi
    · have hb := hrpow 0.63 (by simp [b_factor])
      rcases hb with hb | ⟨hb, -⟩ | hb
      · linarith
      · linarith
      · exact noninteger_exponents.1 hb
    · have hb := hrpow 1.22 (by simp [b_factor])
      rcases hb with hb | ⟨hb, -⟩ | hb
      · linarith
      · linarith
      · exact noninteger_exponents.2 hb

/-- Witness for C6 (amended) at index 1 and phase angle `π`. -/
theorem phase_func_undefined_witness : ¬ phase_func_dom 1 Real.pi :=
  phase_func_undefined 1 (Or.inl rfl) Real.pi le_rfl (by linarith [Real.pi_pos])

/-- Counterexample to C6 as stated: at phase angle `2π ≥ π` the expression
computed by `phase_func` is defined over the reals (the tangent of the
halved angle is exactly 0) and evaluates to the valid value 1. -/
theorem phase_func_defined_at_two_pi :
    Real.pi ≤ 2 * Real.pi ∧ phase_func_dom 1 (2 * Real.pi) ∧
    phase_func 1 (2 * Real.pi) = some 1 := by
  have hpi := Real.pi_pos
  have harg : (0.5 : ℝ) * (2 * Real.pi) = Real.pi := by ring
  refine ⟨by linarith, ⟨?_, ?_⟩, ?_⟩
  · rw [harg, Real.cos_pi]
    norm_num
  · intro b hb
    simp [b_factor] at hb
    subst hb
    unfold rpow_defined
    right
    left
    rw [harg, Real.tan_pi]
    norm_num
  · have h : (0:ℝ) ^ (0.63:ℝ) = 0 := Real.zero_rpow (by norm_num)
    have htan : Real.tan (0.5 * (2 * Real.pi)) = 0 := by rw [harg, Real.tan_pi]
    simp [phase_func, a_factor, b_factor, htan, h]

/-- C7: when either input vector has zero length, the divisor of the
phase-angle division inside `hg_app_mag` is zero, so the division is a
division by zero and the result is undefined. -/
theorem hg_app_mag_zero_vec (abs_mag slope_g : ℝ) (v1 v2 : Vec3)
    (h : vnorm v1 = 0 ∨ vnorm v2 = 0) :
    vnorm v1 * vnorm v2 = 0 ∧ ¬ hg_app_mag_dom v1 v2 := by
  have hz : vnorm v1 * vnorm v2 = 0 := by rcases h with h | h <;> simp [h]
  exact ⟨hz, fun hd => hd hz⟩

/-- Witness for C7 at `v1 = (0,0,0)`, `v2 = (1,0,0)`. -/
theorem hg_app_mag_zero_vec_witness :
    vnorm (0, 0, 0) * vnorm (1, 0, 0) = 0 ∧ ¬ hg_app_mag_dom (0, 0, 0) (1, 0, 0) :=
  hg_app_mag_zero_vec 10 0.15 (0, 0, 0) (1, 0, 0) (Or.inl vnorm_zero_vec)

/-- C8: for nonzero vectors whose dot product equals the product of their
norms, the phase angle computed inside `hg_app_mag` is `arccos 1 = 0`, and
`phase_func` at phase angle 0 is 1 for both indices. -/
theorem zero_phase_angle (v1 v2 : Vec3)
    (h1 : vnorm v1 ≠ 0) (h2 : vnorm v2 ≠ 0)
    (hdot : dotp v1 v2 = vnorm v1 * vnorm v2) :
    Real.arccos (dotp v1 v2 / (vnorm v1 * vnorm v2)) = 0 ∧
    phase_func 1 0 = some 1 ∧ phase_func 2 0 = some 1 := by
  refine ⟨?_, phase_func_one_at_zero, phase_func_two_at_zero⟩
  rw [hdot, div_self (mul_ne_zero h1 h2), Real.arccos_one]

/-- Witness for C8 at `v1 = (-1,0,0)`, `v2 = (-2,0,0)`, which point in the
same direction. -/
theorem zero_phase_angle_witness :
    Real.arccos (dotp (-1, 0, 0) (-2, 0, 0) /
      (vnorm (-1, 0, 0) * vnorm (-2, 0, 0))) = 0 ∧
    phase_func 1 0 = some 1 ∧ phase_func 2 0 = some 1 := by
  refine zero_phase_angle (-1, 0, 0) (-2, 0, 0) ?_ ?_ ?_
  · rw [vnorm_neg_one]
    norm_num
  · rw [vnorm_neg_two]
    norm_num
  · rw [dotp_example, vnorm_neg_one, vnorm_neg_two]
    norm_num

/-- C10: for every integer index outside `{1, 2}` the dictionary lookup in
`phase_func` fails, so `phase_func` returns `none` for every phase angle. -/
theorem phase_func_bad_index (index : ℤ) (h1 : index ≠ 1) (h2 : index ≠ 2)
    (phase_angle : ℝ) :
    phase_func index phase_angle = none := by
  simp [phase_func, a_factor, h1, h2]

/-- Witness for C10 at index 3 and phase angle 0. -/
theorem phase_func_bad_index_witness : phase_func 3 0 = none :=
  phase_func_bad_index 3 (by decide) (by decide) 0

end NEO
